import Mathlib

set_option maxRecDepth 8192

/-!
Verification of the loris resolver subsystem (src/loris/resolver.py).

The Python module is shallowly embedded: filesystem state is an explicit
record of existing directories and files, the network is a read-only
oracle, and every fallible operation returns an Except value.  Machine
integers of the MD5 computation are Nat with explicit reduction mod 2^32.
-/

/-! ## Pythonic character-list primitives -/

/-- Python s.split(c) on character lists: always returns a nonempty list of
the chunks between occurrences of c. -/
def splitChar (c : Char) : List Char → List (List Char)
  | [] => [[]]
  | x :: xs =>
    match splitChar c xs with
    | [] => [[]]
    | g :: gs => if x = c then [] :: g :: gs else (x :: g) :: gs

/-- Index of the last occurrence of c, if any (Python rfind is this, or -1). -/
def lastIdxOf (c : Char) : List Char → Option Nat
  | [] => none
  | x :: xs =>
    match lastIdxOf c xs with
    | some i => some (i + 1)
    | none => if x = c then some 0 else none

/-- Python s.rfind(c): index of last occurrence or -1. -/
def pyRFind (s : String) (c : Char) : Int :=
  match lastIdxOf c s.data with
  | some i => (i : Int)
  | none => -1

/-- Python s.split(c)[-1]: the chunk after the last occurrence of c
(the whole string when c is absent). -/
def lastSegment (c : Char) (s : String) : String :=
  String.mk ((splitChar c s.data).getLastD [])

/-- Python s.startswith(t). -/
def pyStartsWith (s t : String) : Bool := t.data.isPrefixOf s.data

/-- Python s.endswith(t). -/
def pyEndsWith (s t : String) : Bool := t.data.isSuffixOf s.data

/-- Python (c in s) for a character. -/
def containsChar (s : String) (c : Char) : Bool := s.data.contains c

/-- Python s[:n] on byte strings. -/
def pyTake (s : String) (n : Nat) : String := String.mk (s.data.take n)

/-- Python s[n:] on byte strings. -/
def pyDrop (s : String) (n : Nat) : String := String.mk (s.data.drop n)

/-- Python range(start, stop, step) for positive step. -/
def pyRange (start stop step : Nat) : List Nat :=
  (List.range ((stop - start + (step - 1)) / step)).map (fun k => start + step * k)

/-- Python s.split(sep, 1) for a one-character sep known to occur:
the part before the first occurrence and the part after it. -/
def breakAtChar (c : Char) : List Char → List Char × List Char
  | [] => ([], [])
  | x :: xs =>
    if x = c then ([], xs)
    else
      let p := breakAtChar c xs
      (x :: p.1, p.2)

/-- Fuel-driven worker for Python s.split(sep) with a nonempty sep. -/
def splitOnListAux (sep : List Char) : Nat → List Char → List (List Char)
  | _, [] => [[]]
  | 0, l => [l]
  | fuel + 1, x :: xs =>
    if sep.isPrefixOf (x :: xs) then
      [] :: splitOnListAux sep fuel ((x :: xs).drop sep.length)
    else
      match splitOnListAux sep fuel xs with
      | [] => [[x]]
      | g :: gs => (x :: g) :: gs

/-- Python s.split(sep) for a nonempty separator string. -/
def pySplitStr (s sep : String) : List String :=
  (splitOnListAux sep.data (s.data.length + 1) s.data).map String.mk

/-- Python ASCII str.lower() of one byte. -/
def asciiLower (c : Char) : Char :=
  if 65 ≤ c.toNat ∧ c.toNat ≤ 90 then Char.ofNat (c.toNat + 32) else c

/-- Python str.lower() of a (byte) string. -/
def toLowerPy (s : String) : String := String.mk (s.data.map asciiLower)

/-- A string with no uppercase ASCII letter: the reading of the spec's
"lowercase format token". -/
def isLowerAscii (s : String) : Bool :=
  s.data.all (fun c => !(decide (65 ≤ c.toNat) && decide (c.toNat ≤ 90)))

/-! ## Percent-encoding (urllib.unquote and urllib.quote_plus of Python 2) -/

/-- Hex digit value of a character, upper or lower case. -/
def hexVal? (c : Char) : Option Nat :=
  ([('0', 0), ('1', 1), ('2', 2), ('3', 3), ('4', 4), ('5', 5), ('6', 6),
    ('7', 7), ('8', 8), ('9', 9), ('a', 10), ('b', 11), ('c', 12), ('d', 13),
    ('e', 14), ('f', 15), ('A', 10), ('B', 11), ('C', 12), ('D', 13),
    ('E', 14), ('F', 15)] : List (Char × Nat)).lookup c

/-- Decoding of one chunk that followed a percent sign, as urllib.unquote of
Python 2 does it: the first (up to) two characters are parsed as hex and
replaced by the coded byte, otherwise the percent sign is kept literally. -/
def unquoteChunk (l : List Char) : List Char :=
  match l with
  | a :: b :: t =>
    match hexVal? a, hexVal? b with
    | some x, some y => Char.ofNat (16 * x + y) :: t
    | _, _ => '%' :: l
  | [a] =>
    match hexVal? a with
    | some x => [Char.ofNat x]
    | none => ['%', a]
  | [] => ['%']

/-- Python 2 urllib.unquote: percent-decoding, invalid escapes kept. -/
def unquote (s : String) : String :=
  match splitChar '%' s.data with
  | [] => s
  | first :: rest => String.mk (first ++ (rest.map unquoteChunk).flatten)

/-- Uppercase hex digits, used by quote_plus percent-escapes. -/
def HEXDIG : List Char := "0123456789ABCDEF".data

/-- Characters urllib.quote of Python 2 never escapes (letters, digits, _.-). -/
def safeChar (c : Char) : Bool :=
  (decide (48 ≤ c.toNat) && decide (c.toNat ≤ 57)) ||
  (decide (65 ≤ c.toNat) && decide (c.toNat ≤ 90)) ||
  (decide (97 ≤ c.toNat) && decide (c.toNat ≤ 122)) ||
  decide (c = '_') || decide (c = '.') || decide (c = '-')

/-- Percent escape of one byte, uppercase hex as Python produces. -/
def pctEncode (c : Char) : List Char :=
  ['%', HEXDIG.getD (c.toNat % 256 / 16) '0', HEXDIG.getD (c.toNat % 16) '0']

/-- Python 2 urllib.quote_plus with the default empty safe set: spaces become
plus signs, safe bytes stay, every other byte is percent-escaped. -/
def quote_plus (s : String) : String :=
  String.mk ((s.data.map (fun c =>
    if safeChar c then [c] else if c = ' ' then ['+'] else pctEncode c)).flatten)

/-! ## MD5 (hashlib.md5(...).hexdigest()), on Nat mod 2^32 -/

def pow32 : Nat := 4294967296

def mask32 : Nat := 4294967295

/-- Left rotation of a 32-bit word. -/
def rotl32 (x s : Nat) : Nat := ((x <<< s) % pow32) ||| (x >>> (32 - s))

/-- The 64 sine-derived MD5 round constants of RFC 1321. -/
def md5K : List Nat :=
  [0xd76aa478, 0xe8c7b756, 0x242070db, 0xc1bdceee,
   0xf57c0faf, 0x4787c62a, 0xa8304613, 0xfd469501,
   0x698098d8, 0x8b44f7af, 0xffff5bb1, 0x895cd7be,
   0x6b901122, 0xfd987193, 0xa679438e, 0x49b40821,
   0xf61e2562, 0xc040b340, 0x265e5a51, 0xe9b6c7aa,
   0xd62f105d, 0x02441453, 0xd8a1e681, 0xe7d3fbc8,
   0x21e1cde6, 0xc33707d6, 0xf4d50d87, 0x455a14ed,
   0xa9e3e905, 0xfcefa3f8, 0x676f02d9, 0x8d2a4c8a,
   0xfffa3942, 0x8771f681, 0x6d9d6122, 0xfde5380c,
   0xa4beea44, 0x4bdecfa9, 0xf6bb4b60, 0xbebfbc70,
   0x289b7ec6, 0xeaa127fa, 0xd4ef3085, 0x04881d05,
   0xd9d4d039, 0xe6db99e5, 0x1fa27cf8, 0xc4ac5665,
   0xf4292244, 0x432aff97, 0xab9423a7, 0xfc93a039,
   0x655b59c3, 0x8f0ccc92, 0xffeff47d, 0x85845dd1,
   0x6fa87e4f, 0xfe2ce6e0, 0xa3014314, 0x4e0811a1,
   0xf7537e82, 0xbd3af235, 0x2ad7d2bb, 0xeb86d391]

/-- The MD5 per-round left-rotation amounts. -/
def md5S : List Nat :=
  [7, 12, 17, 22, 7, 12, 17, 22, 7, 12, 17, 22, 7, 12, 17, 22,
   5, 9, 14, 20, 5, 9, 14, 20, 5, 9, 14, 20, 5, 9, 14, 20,
   4, 11, 16, 23, 4, 11, 16, 23, 4, 11, 16, 23, 4, 11, 16, 23,
   6, 10, 15, 21, 6, 10, 15, 21, 6, 10, 15, 21, 6, 10, 15, 21]

/-- The MD5 round mixing function, chosen by the round index. -/
def md5F (i b c d : Nat) : Nat :=
  if i < 16 then (b &&& c) ||| ((mask32 ^^^ b) &&& d)
  else if i < 32 then (d &&& b) ||| ((mask32 ^^^ d) &&& c)
  else if i < 48 then b ^^^ c ^^^ d
  else c ^^^ (b ||| (mask32 ^^^ d))

/-- The MD5 message-word schedule, chosen by the round index. -/
def md5G (i : Nat) : Nat :=
  if i < 16 then i
  else if i < 32 then (5 * i + 1) % 16
  else if i < 48 then (3 * i + 5) % 16
  else (7 * i) % 16

/-- Little-endian 32-bit word at index j of a 64-byte chunk. -/
def md5Word (chunk : List Nat) (j : Nat) : Nat :=
  chunk.getD (4 * j) 0 + 256 * chunk.getD (4 * j + 1) 0 +
    65536 * chunk.getD (4 * j + 2) 0 + 16777216 * chunk.getD (4 * j + 3) 0

/-- The 64 MD5 rounds on one chunk, starting from state (A, B, C, D). -/
def md5Rounds (chunk : List Nat) (st : Nat × Nat × Nat × Nat) :
    Nat × Nat × Nat × Nat :=
  (List.range 64).foldl (fun s i =>
    let f := (md5F i s.2.1 s.2.2.1 s.2.2.2 + s.1 + md5K.getD i 0 +
      md5Word chunk (md5G i)) % pow32
    (s.2.2.2,
     (s.2.1 + rotl32 f (md5S.getD i 0)) % pow32,
     s.2.1,
     s.2.2.1)) st

/-- Fuel-driven worker splitting a byte list into 64-byte chunks; the fuel
is the length, which bounds the number of chunks. -/
def chunks64Aux : Nat → List Nat → List (List Nat)
  | _, [] => []
  | 0, l => [l]
  | fuel + 1, x :: xs => (x :: xs).take 64 :: chunks64Aux fuel ((x :: xs).drop 64)

/-- Split a byte list into 64-byte chunks. -/
def chunks64 (l : List Nat) : List (List Nat) := chunks64Aux l.length l

/-- Little-endian byte expansion of a 32-bit word. -/
def wordLE (x : Nat) : List Nat :=
  [x &&& 255, (x >>> 8) &&& 255, (x >>> 16) &&& 255, (x >>> 24) &&& 255]

/-- Little-endian 64-bit length block of the MD5 padding. -/
def le8 (n : Nat) : List Nat := (List.range 8).map (fun k => (n >>> (8 * k)) &&& 255)

/-- MD5 padding: a 0x80 byte, zeros to 56 mod 64, the bit length. -/
def md5Pad (msg : List Nat) : List Nat :=
  let z := (56 + 64 - ((msg.length + 1) % 64)) % 64
  msg ++ [128] ++ List.replicate z 0 ++ le8 ((8 * msg.length) % 18446744073709551616)

/-- The 16-byte MD5 digest of a byte list. -/
def md5Bytes (msg : List Nat) : List Nat :=
  let final := (chunks64 (md5Pad msg)).foldl (fun s chunk =>
    let r := md5Rounds chunk s
    ((s.1 + r.1) % pow32, (s.2.1 + r.2.1) % pow32,
     (s.2.2.1 + r.2.2.1) % pow32, (s.2.2.2 + r.2.2.2) % pow32))
    (1732584193, 4023233417, 2562383102, 271733878)
  wordLE final.1 ++ wordLE final.2.1 ++ wordLE final.2.2.1 ++ wordLE final.2.2.2

/-- Lowercase hex digits used by hexdigest. -/
def hexChars : List Char := "0123456789abcdef".data

/-- Lowercase hex digit of a value (reduced mod 16). -/
def hexDigit (n : Nat) : Char := hexChars.getD (n % 16) '0'

/-- Two lowercase hex digits of a byte. -/
def hexByte (b : Nat) : List Char := [hexDigit (b / 16), hexDigit b]

/-- hashlib.md5(s).hexdigest() of a Python 2 byte string. -/
def md5Hex (s : String) : String :=
  String.mk (((md5Bytes (s.data.map (fun c => c.toNat % 256))).map hexByte).flatten)

/-! ## POSIX paths (os.path.join, os.path.dirname on the posix flavour) -/

/-- posixpath.join of two components. -/
def pjoin (a b : String) : String :=
  if pyStartsWith b "/" then b
  else if a = "" ∨ pyEndsWith a "/" then a ++ b
  else a ++ "/" ++ b

/-- Trailing slashes removed (str.rstrip over one character). -/
def rstripSlash (l : List Char) : List Char :=
  (l.reverse.dropWhile (fun c => c = '/')).reverse

/-- posixpath.dirname: everything before the last slash, with trailing
slashes stripped unless the result is all slashes. -/
def dirname (p : String) : String :=
  match lastIdxOf '/' p.data with
  | none => ""
  | some i =>
    let head := p.data.take (i + 1)
    if head.all (fun c => c = '/') then String.mk head
    else String.mk (rstripSlash head)

/-! ## Filesystem state and primitives

The filesystem is the mutable state of the embedding: the set of existing
directory paths and the set of existing file paths, as lists (the list
order of files doubles as the unspecified os.listdir order that glob
exposes). -/

/-- Exceptions of the embedded Python: ResolverException(status, message)
and the builtin exception classes the module can let escape. -/
inductive PyErr where
  | resolverExn (status : Nat) (msg : String)
  | valueErr
  | typeErr
  | keyErr
  | idxErr
  | attrErr
  | osErr
  | ioErr
deriving DecidableEq, Repr

structure FS where
  dirs : List String
  files : List String
deriving DecidableEq, Repr

/-- os.path.exists: true for an existing directory or file. -/
def pathExists (fs : FS) (p : String) : Bool :=
  fs.dirs.contains p || fs.files.contains p

/-- The chain of ancestors os.makedirs would have to create below p. -/
def ancChainAux : Nat → String → List String
  | 0, _ => []
  | fuel + 1, p =>
    let d := dirname p
    if d = p ∨ d = "" then [] else d :: ancChainAux fuel d

/-- Proper ancestor directories of a path, nearest first. -/
def ancChain (p : String) : List String := ancChainAux p.data.length p

/-- os.makedirs: creates the leaf and any missing ancestors; raises OSError
when the leaf already exists (as directory or file), or when an ancestor
exists as a file. -/
def makedirs (fs : FS) (p : String) : Except PyErr FS :=
  if pathExists fs p then .error .osErr
  else if (ancChain p).any (fun d => fs.files.contains d) then .error .osErr
  else .ok { fs with dirs := p :: (ancChain p ++ fs.dirs) }

/-- open(p, 'wb') followed by writing the body: fails unless the parent
directory exists and p itself is not a directory; creating or overwriting
a file leaves the path set otherwise unchanged. -/
def writeFile (fs : FS) (p : String) : Except PyErr FS :=
  if fs.dirs.contains p then .error .ioErr
  else if fs.dirs.contains (dirname p) then
    .ok { fs with files := if fs.files.contains p then fs.files else p :: fs.files }
  else .error .ioErr

/-- shutil.copy src dst (dst a full file name): read src, write dst. -/
def copyFile (fs : FS) (src dst : String) : Except PyErr FS :=
  if fs.files.contains src then writeFile fs dst else .error .ioErr

/-- glob.glob(join(d, 'loris_cache.*')): the files directly inside d whose
name starts with loris_cache., in listdir (here: list) order. -/
def globCache (fs : FS) (d : String) : List String :=
  let pre := pjoin d "loris_cache."
  fs.files.filter (fun f =>
    pre.data.isPrefixOf f.data && !(f.data.drop pre.data.length).contains '/')

/-! ## The network, modelled as a read-only oracle

requests raises MissingSchema while parsing the URL, before any I/O, when
the URL is None or lacks a scheme it knows; which URLs are malformed is
part of the oracle.  The third component of the stateful operations below
counts actual network requests, so a MissingSchema outcome counts none. -/

inductive NetResp where
  | missingSchema
  | resp (ok : Bool) (status : Nat) (contentType : Option String)
deriving DecidableEq, Repr

/-- Request options assembled by the resolvers (basic auth or client
certificate, TLS verification); they select credentials, they do not
change which bytes exist at the origin. -/
structure ReqOpts where
  cert : Option (String × String) := none
  auth : Option (String × String) := none
  verify : Bool := true
deriving DecidableEq, Repr

/-- The origin servers: responses of HEAD and GET per URL and options. -/
structure Net where
  head : String → ReqOpts → NetResp
  get : String → ReqOpts → NetResp

/-- requests.get (requests.head below): None or a scheme-less URL raises
MissingSchema without touching the network; otherwise one request. -/
def doGet (net : Net) (u : Option String) (o : ReqOpts) : NetResp × Nat :=
  match u with
  | none => (.missingSchema, 0)
  | some url =>
    match net.get url o with
    | .missingSchema => (.missingSchema, 0)
    | .resp ok status ct => (.resp ok status ct, 1)

def doHead (net : Net) (u : Option String) (o : ReqOpts) : NetResp × Nat :=
  match u with
  | none => (.missingSchema, 0)
  | some url =>
    match net.head url o with
    | .missingSchema => (.missingSchema, 0)
    | .resp ok status ct => (.resp ok status ct, 1)

/-!  ## SimpleFSResolver -/

namespace SimpleFSResolver

/-- Configuration: the ordered source roots (src_img_roots, or the single
src_img_root). -/
structure Cfg where
  source_roots : List String

/-- source_file_path: the first source root under which the percent-decoded
identifier names an existing path. -/
def source_file_path (cfg : Cfg) (fs : FS) (ident0 : String) : Option String :=
  let ident := unquote ident0
  (cfg.source_roots.map (fun d => pjoin d ident)).find? (fun fp => pathExists fs fp)

def is_resolvable (cfg : Cfg) (fs : FS) (ident : String) : Bool :=
  (source_file_path cfg fs ident).isSome

/-- format_from_ident: ident.split('.')[-1].lower(). -/
def format_from_ident (ident : String) : String := toLowerPy (lastSegment '.' ident)

/-- resolve: raises 404 when is_resolvable (= source_file_path is not None)
fails, otherwise returns the path found by source_file_path and the
format; the source re-runs source_file_path on the unchanged state, which
the match below expresses directly. -/
def resolve (cfg : Cfg) (fs : FS) (ident : String) :
    Except PyErr (String × String) :=
  match source_file_path cfg fs ident with
  | none => .error (.resolverExn 404
      ("Source image not found for identifier: " ++ ident ++ "."))
  | some source_fp => .ok (source_fp, format_from_ident ident)

end SimpleFSResolver

/-! ## SimpleHTTPResolver

The class methods are embedded as functions over the configuration; the
methods a subclass overrides (here only _web_request_url) are passed as
the wru parameter to the shared bodies, mirroring dynamic dispatch. -/

namespace SimpleHTTPResolver

/-- Configuration of SimpleHTTPResolver after __init__ has read it
(source_pre and source_suf stand for the source_ prefix and suffix url
parts; ident_regex models re.compile(...).match as a predicate). -/
structure Cfg where
  cache_root : String
  source_pre : String := ""
  source_suf : String := ""
  default_format : Option String := none
  head_resolvable : Bool := false
  uri_resolvable : Bool := false
  user : Option String := none
  pw : Option String := none
  cert : Option String := none
  key : Option String := none
  ssl_check : Bool := true
  ident_regex : Option (String → Bool) := none

/-- request_options: client certificate, basic auth, TLS verification. -/
def request_options (cfg : Cfg) : ReqOpts :=
  { cert := match cfg.cert, cfg.key with
      | some c, some k => some (c, k)
      | _, _ => none,
    auth := match cfg.user, cfg.pw with
      | some u, some p => some (u, p)
      | _, _ => none,
    verify := cfg.ssl_check }

/-- The method _web_request_url: the identifier itself when it is a resolvable URI,
else source prefix + identifier + source suffix. -/
def web_request_url (cfg : Cfg) (ident : String) :
    Except PyErr (Option String × ReqOpts) :=
  .ok (some (if (pyStartsWith ident "http://" ∨ pyStartsWith ident "https://") ∧
        cfg.uri_resolvable
      then ident else cfg.source_pre ++ ident ++ cfg.source_suf),
    request_options cfg)

/-- format_from_ident(ident, potential_format): default format, then the
caller's format, then a short trailing extension, else a 404. -/
def format_from_ident (cfg : Cfg) (ident : String) (potential_format : Option String) :
    Except PyErr String :=
  match cfg.default_format with
  | some f => .ok f
  | none =>
    match potential_format with
    | some f => .ok f
    | none =>
      if pyRFind ident '.' ≠ -1 ∧ (ident.data.length : Int) - pyRFind ident '.' ≤ 5 then
        .ok (lastSegment '.' ident)
      else
        .error (.resolverExn 404 ("Format could not be determined for: " ++ ident ++ "."))

/-- The file_structure_list of _ident_file_structure: the first two hex
digits of the hash, then three digits at a time. -/
def shardPieces (ident_hash : String) : List String :=
  pyTake ident_hash 2 ::
    (pyRange 2 ident_hash.data.length 3).map (fun i => pyTake (pyDrop ident_hash i) 3)

/-- The method _ident_file_structure: the md5 of the re-quoted identifier, split as a
2-hex-digit directory then 3-hex-digit directories, joined as a path. -/
def ident_file_structure (ident : String) : String :=
  (shardPieces (md5Hex (quote_plus ident))).foldl pjoin ""

/-- The method _cache_subroot: pid-space segments (or a literal http) then the hashed
file structure. -/
def cache_subroot (ident : String) : String :=
  let base :=
    if ¬ pyStartsWith ident "http:/" ∧ ¬ pyStartsWith ident "https:/" ∧
        (splitChar ':' ident.data).length > 1 then
      (((splitChar ':' ident.data).dropLast).map String.mk).foldl pjoin ""
    else if pyStartsWith ident "http:/" ∨ pyStartsWith ident "https:/" then "http"
    else ""
  pjoin base (ident_file_structure ident)

def cache_dir_path (cfg : Cfg) (ident0 : String) : String :=
  pjoin cfg.cache_root (cache_subroot (unquote ident0))

def cached_files_for_ident (cfg : Cfg) (fs : FS) (ident0 : String) : List String :=
  let cache_dir := cache_dir_path cfg ident0
  if pathExists fs cache_dir then globCache fs cache_dir else []

def in_cache (cfg : Cfg) (fs : FS) (ident0 : String) : Bool :=
  pathExists fs (cache_dir_path cfg ident0)

def cached_object (cfg : Cfg) (fs : FS) (ident0 : String) : Except PyErr String :=
  match cached_files_for_ident cfg fs ident0 with
  | f :: _ => .ok f
  | [] => .error (.resolverExn 404
      ("Image not found for identifier: " ++ ident0 ++ "."))

/-- Modelled from the spec: the fixed media-type-to-format table (the
constant FORMATS_BY_MEDIA_TYPE of the constants module, which is not under
src/). -/
def FORMATS_BY_MEDIA_TYPE (mt : String) : Option String :=
  ([("image/jpeg", "jpg"), ("image/tiff", "tif"), ("image/jp2", "jp2"),
    ("image/png", "png")] : List (String × String)).lookup mt

/-- cache_file_extension: the content-type mapped through the media-type
table when the header is present and known, else identifier-based. -/
def cache_file_extension (cfg : Cfg) (ident : String) (ct : Option String) :
    Except PyErr String :=
  match ct with
  | some mt =>
    match FORMATS_BY_MEDIA_TYPE mt with
    | some f => format_from_ident cfg ident (some f)
    | none => format_from_ident cfg ident none
  | none => format_from_ident cfg ident none

/-- copy_to_cache with the _web_request_url of the dynamic class: GET the
source, infer the extension, makedirs (exceptions swallowed by the bare
except of the source), stream the body to loris_cache.extension.  The
identifier is unquoted once here and cache_dir_path unquotes its argument
again, exactly as the source does. -/
def copy_to_cacheW (cfg : Cfg)
    (wru : String → Except PyErr (Option String × ReqOpts))
    (net : Net) (fs : FS) (ident0 : String) : Except PyErr Unit × FS × Nat :=
  let ident := unquote ident0
  match wru ident with
  | .error e => (.error e, fs, 0)
  | .ok (u, o) =>
    match doGet net u o with
    | (.missingSchema, n) =>
      (.error (.resolverExn 404
        ("Bad URL request made for identifier: " ++ ident ++ ".")), fs, n)
    | (.resp rok status ct, n) =>
      if rok then
        match cache_file_extension cfg ident ct with
        | .error e => (.error e, fs, n)
        | .ok ext =>
          let cache_dir := cache_dir_path cfg ident
          let local_fp := pjoin cache_dir ("loris_cache." ++ ext)
          let fs1 := match makedirs fs (dirname local_fp) with
            | .ok f => f
            | .error _ => fs
          match writeFile fs1 local_fp with
          | .error e => (.error e, fs1, n)
          | .ok fs2 => (.ok (), fs2, n)
      else
        (.error (.resolverExn 404
          ("Source image not found for identifier: " ++ ident ++
            ". Status code returned: " ++ toString status)), fs, n)

/-- is_resolvable with the _web_request_url of the dynamic class: regex
gate, then a cache-directory hit, then a HEAD or streaming GET probe. -/
def is_resolvableW (cfg : Cfg)
    (wru : String → Except PyErr (Option String × ReqOpts))
    (net : Net) (fs : FS) (ident0 : String) : Except PyErr Bool × Nat :=
  let ident := unquote ident0
  if (match cfg.ident_regex with
      | some rx => !(rx ident)
      | none => false) then
    (.ok false, 0)
  else if pathExists fs (pjoin cfg.cache_root (cache_subroot ident)) then
    (.ok true, 0)
  else
    match wru ident with
    | .error e => (.error e, 0)
    | .ok (u, o) =>
      if cfg.head_resolvable then
        match doHead net u o with
        | (.missingSchema, n) => (.ok false, n)
        | (.resp rok _ _, n) => (.ok rok, n)
      else
        match doGet net u o with
        | (.missingSchema, n) => (.ok false, n)
        | (.resp rok _ _, n) => (.ok rok, n)

/-- resolve with the _web_request_url of the dynamic class: populate the
cache unless the cache directory exists, then serve the first
loris_cache.* file with a format inferred from its name. -/
def resolveW (cfg : Cfg)
    (wru : String → Except PyErr (Option String × ReqOpts))
    (net : Net) (fs : FS) (ident : String) :
    Except PyErr (String × String) × FS × Nat :=
  if in_cache cfg fs ident then
    match cached_object cfg fs ident with
    | .error e => (.error e, fs, 0)
    | .ok p =>
      match format_from_ident cfg p none with
      | .error e => (.error e, fs, 0)
      | .ok fmt => (.ok (p, fmt), fs, 0)
  else
    match copy_to_cacheW cfg wru net fs ident with
    | (.error e, fs1, n) => (.error e, fs1, n)
    | (.ok _, fs1, n) =>
      match cached_object cfg fs1 ident with
      | .error e => (.error e, fs1, n)
      | .ok p =>
        match format_from_ident cfg p none with
        | .error e => (.error e, fs1, n)
        | .ok fmt => (.ok (p, fmt), fs1, n)

def is_resolvable (cfg : Cfg) (net : Net) (fs : FS) (ident : String) :
    Except PyErr Bool × Nat :=
  is_resolvableW cfg (web_request_url cfg) net fs ident

def copy_to_cache (cfg : Cfg) (net : Net) (fs : FS) (ident : String) :
    Except PyErr Unit × FS × Nat :=
  copy_to_cacheW cfg (web_request_url cfg) net fs ident

def resolve (cfg : Cfg) (net : Net) (fs : FS) (ident : String) :
    Except PyErr (String × String) × FS × Nat :=
  resolveW cfg (web_request_url cfg) net fs ident

end SimpleHTTPResolver

/-! ## TemplateHTTPResolver -/

namespace TemplateHTTPResolver

/-- One configured template subsection: the url pattern and the per-template
overrides of the request options. -/
structure Template where
  url : String
  user : Option String := none
  pw : Option String := none
  cert : Option String := none
  key : Option String := none
  ssl_check : Option Bool := none

/-- Configuration: the SimpleHTTPResolver options (uri_resolvable is forced
on by __init__), the template table keyed by name, and the optional
delimiter. -/
structure Cfg where
  base : SimpleHTTPResolver.Cfg
  templates : List (String × Template)
  delimiter : Option String := none

/-- Python s % args for patterns whose conversions are all %s: every
placeholder is replaced positionally; a count mismatch is a TypeError. -/
def pyFormat (pattern : String) (args : List String) : Except PyErr String :=
  let parts := pySplitStr pattern "%s"
  if args.length + 1 = parts.length then
    .ok ((parts.headD "") ++ String.join ((args.zip parts.tail).map
      (fun p => p.1 ++ p.2)))
  else .error .typeErr

/-- The method _web_request_url of TemplateHTTPResolver: identifiers without a colon
are ignored; the part before the first colon selects a template; the rest
(split at the configured delimiter when there is one) is substituted into
the url pattern; options merge the generic ones with per-template
overrides. -/
def web_request_url (cfg : Cfg) (ident0 : String) :
    Except PyErr (Option String × ReqOpts) :=
  if ¬ containsChar ident0 ':' then .ok (none, {})
  else
    let p := breakAtChar ':' ident0.data
    let pre := String.mk p.1
    let ident := String.mk p.2
    let urlE : Except PyErr (Option String) :=
      match cfg.delimiter with
      | some d =>
        match cfg.templates.lookup pre with
        | some t =>
          match pyFormat t.url (pySplitStr ident d) with
          | .ok u => .ok (some u)
          | .error e => .error e
        | none => .ok none
      | none =>
        match cfg.templates.lookup pre with
        | some t =>
          match pyFormat t.url [ident] with
          | .ok u => .ok (some u)
          | .error e => .error e
        | none => .ok none
    match urlE with
    | .error e => .error e
    | .ok none => .ok (none, {})
    | .ok (some url) =>
      match cfg.templates.lookup pre with
      | none => .ok (none, {})
      | some conf =>
        let o := SimpleHTTPResolver.request_options cfg.base
        let o := match conf.cert, conf.key with
          | some c, some k => { o with cert := some (c, k) }
          | _, _ => o
        let o := match conf.user, conf.pw with
          | some u, some p => { o with auth := some (u, p) }
          | _, _ => o
        let o := match conf.ssl_check with
          | some v => { o with verify := v }
          | none => o
        .ok (some url, o)

def is_resolvable (cfg : Cfg) (net : Net) (fs : FS) (ident : String) :
    Except PyErr Bool × Nat :=
  SimpleHTTPResolver.is_resolvableW cfg.base (web_request_url cfg) net fs ident

def resolve (cfg : Cfg) (net : Net) (fs : FS) (ident : String) :
    Except PyErr (String × String) × FS × Nat :=
  SimpleHTTPResolver.resolveW cfg.base (web_request_url cfg) net fs ident

end TemplateHTTPResolver

/-! ## SourceImageCachingResolver -/

namespace SourceImageCachingResolver

structure Cfg where
  cache_root : String
  source_root : String

def source_file_path (cfg : Cfg) (ident : String) : String :=
  pjoin cfg.source_root (unquote ident)

def cache_file_path (cfg : Cfg) (ident : String) : String :=
  pjoin cfg.cache_root (unquote ident)

def is_resolvable (cfg : Cfg) (fs : FS) (ident : String) : Bool :=
  pathExists fs (source_file_path cfg ident)

/-- format_from_ident: ident.split('.')[-1], with no case folding. -/
def format_from_ident (ident : String) : String := lastSegment '.' ident

def in_cache (cfg : Cfg) (fs : FS) (ident : String) : Bool :=
  pathExists fs (cache_file_path cfg ident)

/-- copy_to_cache: an unguarded makedirs of the parent of the cache path,
then the copy; either failure escapes (the state reached so far is
returned beside the error). -/
def copy_to_cache (cfg : Cfg) (fs : FS) (ident : String) :
    Except PyErr Unit × FS :=
  match makedirs fs (dirname (cache_file_path cfg ident)) with
  | .error e => (.error e, fs)
  | .ok fs1 =>
    match copyFile fs1 (source_file_path cfg ident) (cache_file_path cfg ident) with
    | .error e => (.error e, fs1)
    | .ok fs2 => (.ok (), fs2)

/-- resolve: 404 unless the source exists; copy on a cache miss; return the
cache path and the identifier-derived format.  The third component counts
copy_to_cache invocations. -/
def resolve (cfg : Cfg) (fs : FS) (ident : String) :
    Except PyErr (String × String) × FS × Nat :=
  if ¬ is_resolvable cfg fs ident then
    (.error (.resolverExn 404
      ("Source image not found for identifier: " ++ ident ++ ".")), fs, 0)
  else if ¬ in_cache cfg fs ident then
    match copy_to_cache cfg fs ident with
    | (.error e, fs1) => (.error e, fs1, 1)
    | (.ok _, fs1) => (.ok (cache_file_path cfg ident, format_from_ident ident), fs1, 1)
  else
    (.ok (cache_file_path cfg ident, format_from_ident ident), fs, 0)

end SourceImageCachingResolver

/-! ## IwmFSResolver -/

namespace IwmFSResolver

/-- One SOLR document of the query response: its mediaReference list and
its other fields (the sizeMediaLocation lists). -/
structure SolrDoc where
  mediaReference : List String
  fields : List (String × List String)

/-- A parsed SOLR response body. -/
structure SolrResp where
  numFound : Nat
  docs : List SolrDoc

/-- The SOLR index, as an oracle from the query's object id and media id to
the parsed JSON of the response. -/
def SolrNet : Type := String → String → SolrResp

structure Cfg where
  source_roots : List String

/-- parse_json_val: when numFound is positive, scan the docs; within a doc
whose field for the requested size exists, return the location at the
position where mediaReference equals the media id (a missing field is the
KeyError, a short location list the IndexError, both escaping); when the
loop matches nothing the Python function falls off the end, i.e. None. -/
def parse_json_val (j : SolrResp) (image_size_id media_id : String) :
    Except PyErr (Option String) :=
  if j.numFound > 0 then
    let rec scan : List SolrDoc → Except PyErr (Option String)
      | [] => .ok none
      | el :: rest =>
        match el.fields.lookup image_size_id with
        | none => .error .keyErr
        | some media_locations =>
          match el.mediaReference.indexOf? media_id with
          | some k =>
            match media_locations.get? k with
            | some loc => .ok (some loc)
            | none => .error .idxErr
          | none => scan rest
    scan j.docs
  else .ok none

/-- source_file_path: percent-decode, unpack the three slash-separated
fields (a count mismatch is the ValueError of tuple unpacking), query
SOLR, and return the first source root containing the resulting relative
path.  The second component counts SOLR requests. -/
def source_file_path (cfg : Cfg) (solr : SolrNet) (fs : FS) (ident0 : String) :
    Except PyErr (Option String) × Nat :=
  let ident := unquote ident0
  match splitChar '/' ident.data with
  | [o, m, s] =>
    let object_id := String.mk o
    let media_id := String.mk m
    let image_size_id := String.mk s ++ "MediaLocation"
    match parse_json_val (solr object_id media_id) image_size_id media_id with
    | .error e => (.error e, 1)
    | .ok none => (.ok none, 1)
    | .ok (some fpath) =>
      (.ok ((cfg.source_roots.map (fun d => pjoin d fpath)).find?
        (fun fp => pathExists fs fp)), 1)
  | _ => (.error .valueErr, 0)

def is_resolvable (cfg : Cfg) (solr : SolrNet) (fs : FS) (ident : String) :
    Except PyErr Bool × Nat :=
  match source_file_path cfg solr fs ident with
  | (.error e, n) => (.error e, n)
  | (.ok r, n) => (.ok r.isSome, n)

def format_from_source_fp (source_fp : String) : String := lastSegment '.' source_fp

/-- resolve: 404 when not resolvable; otherwise source_file_path runs a
second time (a second SOLR query) and its result and extension are
returned (splitting a None path would be Python's AttributeError; it
cannot happen, the state being unchanged). -/
def resolve (cfg : Cfg) (solr : SolrNet) (fs : FS) (ident : String) :
    Except PyErr (String × String) × Nat :=
  match is_resolvable cfg solr fs ident with
  | (.error e, n) => (.error e, n)
  | (.ok false, n) =>
    (.error (.resolverExn 404
      ("Source image not found for identifier: " ++ ident ++ ".")), n)
  | (.ok true, n) =>
    match source_file_path cfg solr fs ident with
    | (.error e, n2) => (.error e, n + n2)
    | (.ok none, n2) => (.error .attrErr, n + n2)
    | (.ok (some source_fp), n2) =>
      (.ok (source_fp, format_from_source_fp source_fp), n + n2)

end IwmFSResolver

/-! ## Spec-side definitions

These definitions follow the words of the spec claims (not the source);
the theorems below compare them with the embedded source functions. -/

/-- A sequence of path components combined into one directory path, each
component combined by the POSIX join. -/
def joinComponents (cs : List String) : String := cs.foldl pjoin ""

/-- Components of a relative path written with slash separators: the claim's
"one 2-character directory component followed by 3-character components". -/
def slashJoin (cs : List String) : String :=
  match cs with
  | [] => ""
  | c :: rest => String.mk (c.data ++ (rest.map (fun s => '/' :: s.data)).flatten)

/-- Claim C2's description of the derived cache sub-path: identifiers that
are http:// or https:// URLs get the single literal component http; other
identifiers containing a colon contribute each colon-delimited segment but
the last as one directory component; either is followed by the hex md5 of
the percent-encoded identifier split into a 2-character component and then
3-character components. -/
def cacheSubrootClaim (ident : String) : String :=
  let hashPath := slashJoin (SimpleHTTPResolver.shardPieces (md5Hex (quote_plus ident)))
  if pyStartsWith ident "http://" ∨ pyStartsWith ident "https://" then
    pjoin "http" hashPath
  else if (splitChar ':' ident.data).length > 1 then
    pjoin (joinComponents (((splitChar ':' ident.data).dropLast).map String.mk)) hashPath
  else
    pjoin "" hashPath

/-- Claim C2 as amended: identical to cacheSubrootClaim except that the URL
test is the source's literal prefix test on "http:/" and "https:/" (one
slash), which also decides whether the identifier is in the pid-space
case. -/
def cacheSubrootAmended (ident : String) : String :=
  let hashPath := slashJoin (SimpleHTTPResolver.shardPieces (md5Hex (quote_plus ident)))
  if pyStartsWith ident "http:/" ∨ pyStartsWith ident "https:/" then
    pjoin "http" hashPath
  else if (splitChar ':' ident.data).length > 1 then
    pjoin (joinComponents (((splitChar ':' ident.data).dropLast).map String.mk)) hashPath
  else
    pjoin "" hashPath

/-- Claim C4's precedence description of format inference: the configured
per-deployment format, else the caller-supplied format, else the trailing
extension when there is a dot and the extension with its separator is at
most 5 characters, else the FormatUndetermined failure (which the source
reports as its 404 ResolverException). -/
def formatPrecedenceClaim (default_fmt : Option String) (ident : String)
    (caller_fmt : Option String) : Except PyErr String :=
  match default_fmt with
  | some f => .ok f
  | none =>
    match caller_fmt with
    | some f => .ok f
    | none =>
      match lastIdxOf '.' ident.data with
      | some i =>
        if ident.data.length - i ≤ 5 then .ok (String.mk (ident.data.drop (i + 1)))
        else .error (.resolverExn 404
          ("Format could not be determined for: " ++ ident ++ "."))
      | none => .error (.resolverExn 404
          ("Format could not be determined for: " ++ ident ++ "."))

/-! ## Concrete witness data -/

/-- A network where every URL exists and serves a JPEG. -/
def wNetJpeg : Net :=
  { head := fun _ _ => .resp true 200 (some "image/jpeg"),
    get := fun _ _ => .resp true 200 (some "image/jpeg") }

/-- An HTTP resolver configuration over a plain origin. -/
def wHttpCfg : SimpleHTTPResolver.Cfg :=
  { cache_root := "/cache", source_pre := "http://origin/" }

/-- A filesystem already holding a staged cache file for identifier x under
wHttpCfg. -/
def wFsCached : FS :=
  { dirs := [SimpleHTTPResolver.cache_dir_path wHttpCfg "x"],
    files := [pjoin (SimpleHTTPResolver.cache_dir_path wHttpCfg "x") "loris_cache.jpg"] }

/-- A filesystem where the cache directory for identifier x exists under
wHttpCfg but holds no staged file. -/
def wFsEmptyDir : FS :=
  { dirs := [SimpleHTTPResolver.cache_dir_path wHttpCfg "x"], files := [] }

/-- A source-image-caching configuration. -/
def wSicCfg : SourceImageCachingResolver.Cfg :=
  { cache_root := "/c", source_root := "/s" }

/-- An empty filesystem. -/
def wFsNone : FS := { dirs := [], files := [] }

/-- A plain filesystem resolver over one root. -/
def wFsCfg : SimpleFSResolver.Cfg := { source_roots := ["/a"] }

/-- Source files under the plain filesystem root. -/
def wFsState : FS := { dirs := [], files := ["/a/x.jpg", "/a/x.JPG"] }

/-- A filesystem for the caching resolver: an uppercase-suffixed source
image, already mirrored in the cache. -/
def wSicFs : FS := { dirs := [], files := ["/s/x.JPG", "/c/x.JPG"] }

/-- A template resolver with no configured templates. -/
def wTplCfg : TemplateHTTPResolver.Cfg :=
  { base := { cache_root := "/tc", uri_resolvable := true }, templates := [] }

/-- A cache state where the cache directory for favicon.ico already exists
under wTplCfg. -/
def wTplFs : FS :=
  { dirs := [pjoin "/tc" (SimpleHTTPResolver.cache_subroot "favicon.ico")], files := [] }

/-- A template resolver with one template named a. -/
def wTplCfg2 : TemplateHTTPResolver.Cfg :=
  { base := { cache_root := "/tc", uri_resolvable := true },
    templates := [("a", { url := "http://e/%s" })] }

/-- An IwmFS resolver over one root, and a SOLR index with no records. -/
def wIwmCfg : IwmFSResolver.Cfg := { source_roots := ["/r"] }

def wSolrEmpty : IwmFSResolver.SolrNet := fun _ _ => { numFound := 0, docs := [] }

/-- A filesystem where the cache parent directory of the identifier b/y.jpg
already exists under wSicCfg while its cache file does not. -/
def wSicFs9 : FS := { dirs := ["/c/b"], files := ["/s/b/y.jpg"] }

/-- A filesystem where the hashed cache directory of x.jpg under wHttpCfg
already exists. -/
def wFs9http : FS :=
  { dirs := [SimpleHTTPResolver.cache_dir_path wHttpCfg "x.jpg"], files := [] }

/-- The filesystem wFs9http after population has staged the cache file. -/
def wFs9httpAfter : FS :=
  { dirs := [SimpleHTTPResolver.cache_dir_path wHttpCfg "x.jpg"],
    files := [pjoin (SimpleHTTPResolver.cache_dir_path wHttpCfg "x.jpg")
      "loris_cache.jpg"] }

/-! ## Bridging lemmas about the string primitives -/

theorem splitChar_ne_nil (c : Char) (l : List Char) : splitChar c l ≠ [] := by
  induction l with
  | nil => simp [splitChar]
  | cons x xs ih =>
    rcases h : splitChar c xs with _ | ⟨g, gs⟩
    · exact absurd h ih
    · rw [splitChar, h]
      dsimp only
      split <;> simp

theorem splitChar_of_none (c : Char) (l : List Char) (h : lastIdxOf c l = none) :
    splitChar c l = [l] := by
  induction l with
  | nil => simp [splitChar]
  | cons x xs ih =>
    rw [lastIdxOf] at h
    rcases h2 : lastIdxOf c xs with _ | j
    · rw [h2] at h
      by_cases hx : x = c
      · simp [hx] at h
      · rw [splitChar, ih h2]
        simp [hx]
    · rw [h2] at h
      simp at h

theorem two_le_splitChar_length (c : Char) (l : List Char) (i : Nat)
    (h : lastIdxOf c l = some i) : 2 ≤ (splitChar c l).length := by
  induction l generalizing i with
  | nil => simp [lastIdxOf] at h
  | cons x xs ih =>
    rcases h3 : splitChar c xs with _ | ⟨g, gs⟩
    · exact absurd h3 (splitChar_ne_nil c xs)
    · rw [splitChar, h3]
      dsimp only
      by_cases hx : x = c
      · simp [hx]
      · rw [lastIdxOf] at h
        rcases h2 : lastIdxOf c xs with _ | j
        · rw [h2] at h
          simp [hx] at h
        · have hr := ih j h2
          rw [h3] at hr
          simp only [hx, if_false]
          simpa using hr

theorem splitChar_getLast? (c : Char) (l : List Char) (i : Nat)
    (h : lastIdxOf c l = some i) :
    (splitChar c l).getLast? = some (l.drop (i + 1)) ∧ i < l.length := by
  induction l generalizing i with
  | nil => simp [lastIdxOf] at h
  | cons x xs ih =>
    rw [lastIdxOf] at h
    rcases h2 : lastIdxOf c xs with _ | j
    · rw [h2] at h
      by_cases hx : x = c
      · rw [if_pos hx] at h
        have hi : i = 0 := by simpa using h.symm
        subst hi
        rw [splitChar, splitChar_of_none c xs h2]
        simp [hx]
      · rw [if_neg hx] at h
        simp at h
    · rw [h2] at h
      have hij : i = j + 1 := by simpa using h.symm
      subst hij
      have ihj := ih j h2
      constructor
      · rcases h3 : splitChar c xs with _ | ⟨g, gs⟩
        · exact absurd h3 (splitChar_ne_nil c xs)
        · have hlen : 2 ≤ (splitChar c xs).length := two_le_splitChar_length c xs j h2
          rw [h3] at hlen
          rcases gs with _ | ⟨g2, gs2⟩
          · simp at hlen
          · have htail : (g2 :: gs2).getLast? = some (xs.drop (j + 1)) := by
              have hq := ihj.1
              rw [h3, List.getLast?_cons_cons] at hq
              exact hq
            rw [splitChar, h3]
            dsimp only
            by_cases hx : x = c
            · rw [if_pos hx, List.getLast?_cons_cons, List.getLast?_cons_cons, htail,
                List.drop_succ_cons]
            · rw [if_neg hx, List.getLast?_cons_cons, htail, List.drop_succ_cons]
      · simpa using Nat.succ_lt_succ ihj.2

theorem lastSegment_of_lastIdx (c : Char) (s : String) (i : Nat)
    (h : lastIdxOf c s.data = some i) :
    lastSegment c s = String.mk (s.data.drop (i + 1)) := by
  rw [lastSegment]
  have h1 := (splitChar_getLast? c s.data i h).1
  rw [List.getLastD_eq_getLast?, h1]
  rfl

theorem lastSegment_of_none (c : Char) (s : String)
    (h : lastIdxOf c s.data = none) : lastSegment c s = s := by
  rw [lastSegment, splitChar_of_none c s.data h]
  rfl

/-! ## Claim C4 -/

/-- Claim C4: format inference of the HTTP caching strategy obeys the
claim's precedence: configured default format first, then the
caller-supplied format, then the identifier's trailing extension when the
identifier has a dot and extension-plus-separator is at most 5 characters,
and the FormatUndetermined 404 in all remaining cases. -/
theorem c4_format_precedence (cfg : SimpleHTTPResolver.Cfg) (ident : String)
    (potential_format : Option String) :
    SimpleHTTPResolver.format_from_ident cfg ident potential_format =
      formatPrecedenceClaim cfg.default_format ident potential_format := by
  rcases hdf : cfg.default_format with _ | f
  · rcases potential_format with _ | f2
    · rcases hL : lastIdxOf '.' ident.data with _ | i
      · simp only [SimpleHTTPResolver.format_from_ident, formatPrecedenceClaim,
          pyRFind, hdf, hL]
        rw [if_neg]
        intro hc
        exact hc.1 rfl
      · have hlt := (splitChar_getLast? '.' ident.data i hL).2
        simp only [SimpleHTTPResolver.format_from_ident, formatPrecedenceClaim,
          pyRFind, hdf, hL]
        have hne : (i : Int) ≠ -1 := by omega
        by_cases h5 : ident.data.length - i ≤ 5
        · have hcon : (i : Int) ≠ -1 ∧ (ident.data.length : Int) - (i : Int) ≤ 5 :=
            ⟨hne, by omega⟩
          rw [if_pos hcon, if_pos h5, lastSegment_of_lastIdx '.' ident i hL]
        · have hcon : ¬ ((i : Int) ≠ -1 ∧ (ident.data.length : Int) - (i : Int) ≤ 5) := by
            intro hc
            have := hc.2
            omega
          rw [if_neg hcon, if_neg h5]
    · simp only [SimpleHTTPResolver.format_from_ident, formatPrecedenceClaim, hdf]
  · simp only [SimpleHTTPResolver.format_from_ident, formatPrecedenceClaim, hdf]

/-! ## Lemmas about paths and the cache path deriver -/

theorem mem_of_head?_eq {α : Type} (l : List α) (c : α) (h : l.head? = some c) :
    c ∈ l := by
  rcases l with _ | ⟨x, xs⟩
  · simp at h
  · have hx : x = c := by simpa using h
    simp [hx]

theorem mem_of_getLast?_eq {α : Type} (l : List α) (c : α)
    (h : l.getLast? = some c) : c ∈ l := by
  have h2 : l.reverse.head? = some c := by rw [List.head?_reverse]; exact h
  have h3 := mem_of_head?_eq _ _ h2
  simpa using h3

theorem isPrefixOf_single (c : Char) (l : List Char) :
    [c].isPrefixOf l = true ↔ l.head? = some c := by
  rw [List.isPrefixOf_iff_prefix]
  constructor
  · intro h
    rcases h with ⟨t, ht⟩
    rw [← ht]
    rfl
  · intro h
    rcases l with _ | ⟨x, xs⟩
    · simp at h
    · have hx : x = c := by simpa using h
      subst hx
      exact ⟨xs, rfl⟩

theorem pyStartsWith_slash (b : String) :
    pyStartsWith b "/" = true ↔ b.data.head? = some '/' := by
  rw [pyStartsWith]
  exact isPrefixOf_single '/' b.data

theorem pyEndsWith_slash (a : String) :
    pyEndsWith a "/" = true ↔ a.data.getLast? = some '/' := by
  have h0 : pyEndsWith a "/" = ['/'].isPrefixOf a.data.reverse := rfl
  rw [h0, isPrefixOf_single, List.head?_reverse]

theorem string_empty_iff (a : String) : a = "" ↔ a.data = [] := by
  constructor
  · intro h; rw [h]
  · intro h
    apply String.ext
    rw [h]

theorem empty_append_str (b : String) : "" ++ b = b := by
  apply String.ext
  rw [String.data_append]
  rfl

theorem pjoin_empty_left (b : String) : pjoin "" b = b := by
  rw [pjoin]
  split
  · rfl
  · rw [if_pos (Or.inl rfl)]
    exact empty_append_str b

theorem pjoin_norm (a b : String) (hb : b.data.head? ≠ some '/')
    (ha : a.data ≠ []) (ha2 : a.data.getLast? ≠ some '/') :
    pjoin a b = String.mk (a.data ++ '/' :: b.data) := by
  rw [pjoin]
  rw [if_neg, if_neg]
  · apply String.ext
    simp [String.data_append]
  · intro hc
    rcases hc with hc | hc
    · exact ha ((string_empty_iff a).mp hc)
    · exact ha2 ((pyEndsWith_slash a).mp hc)
  · intro hc
    exact hb ((pyStartsWith_slash b).mp hc)

theorem foldl_pjoin_norm (ss : List String) :
    ∀ (a : String), a.data ≠ [] → a.data.getLast? ≠ some '/' →
    (∀ s ∈ ss, s.data ≠ [] ∧ s.data.head? ≠ some '/' ∧ s.data.getLast? ≠ some '/') →
    ss.foldl pjoin a = String.mk (a.data ++ (ss.map (fun s => '/' :: s.data)).flatten) := by
  induction ss with
  | nil =>
    intro a _ _ _
    simp
  | cons s rest ih =>
    intro a ha ha2 hall
    obtain ⟨hs1, hs2, hs3⟩ := hall s (by simp)
    have hrest : ∀ t ∈ rest, t.data ≠ [] ∧ t.data.head? ≠ some '/' ∧
        t.data.getLast? ≠ some '/' := fun t ht => hall t (List.mem_cons_of_mem s ht)
    have hlast : (a.data ++ '/' :: s.data).getLast? = s.data.getLast? := by
      rw [List.getLast?_append]
      rcases hd : s.data with _ | ⟨y, ys⟩
      · exact absurd hd hs1
      · rw [List.getLast?_cons_cons]
        rcases h4 : (y :: ys).getLast? with _ | z
        · simp at h4
        · rfl
    rw [List.foldl_cons, pjoin_norm a s hs2 ha ha2]
    have hstep := ih (String.mk (a.data ++ '/' :: s.data)) (by simp) (by
        show (a.data ++ '/' :: s.data).getLast? ≠ some '/'
        rw [hlast]; exact hs3) hrest
    rw [hstep]
    apply String.ext
    simp

/-! ## Facts about the md5 hex digest -/

theorem md5Bytes_length (m : List Nat) : (md5Bytes m).length = 16 := by
  rw [md5Bytes]
  simp [wordLE]

theorem hexDigit_mem (n : Nat) : hexDigit n ∈ hexChars := by
  rw [hexDigit]
  have h : n % 16 < 16 := Nat.mod_lt _ (by norm_num)
  set m := n % 16 with hm
  interval_cases m <;> decide

theorem flatten_map_hexByte_length (l : List Nat) :
    ((l.map hexByte).flatten).length = 2 * l.length := by
  induction l with
  | nil => simp
  | cons x xs ih =>
    simp only [List.map_cons, List.flatten_cons, List.length_append, ih, hexByte]
    simp
    ring

theorem md5Hex_length (s : String) : (md5Hex s).data.length = 32 := by
  show (((md5Bytes _).map hexByte).flatten).length = 32
  rw [flatten_map_hexByte_length, md5Bytes_length]

theorem md5Hex_mem (s : String) : ∀ c ∈ (md5Hex s).data, c ∈ hexChars := by
  intro c hc
  have hc2 : c ∈ ((md5Bytes (s.data.map (fun c => c.toNat % 256))).map hexByte).flatten := hc
  rw [List.mem_flatten] at hc2
  obtain ⟨l, hl, hcl⟩ := hc2
  rw [List.mem_map] at hl
  obtain ⟨b, _, rfl⟩ := hl
  simp only [hexByte, List.mem_cons, List.mem_singleton, List.not_mem_nil, or_false] at hcl
  rcases hcl with rfl | rfl
  · exact hexDigit_mem _
  · exact hexDigit_mem _

/-! ## Facts about the shard pieces -/

theorem pyRange_2_32 : pyRange 2 32 3 = [2, 5, 8, 11, 14, 17, 20, 23, 26, 29] := by
  decide

theorem shardPieces_unfold (hx : String) (hlen : hx.data.length = 32) :
    SimpleHTTPResolver.shardPieces hx = pyTake hx 2 ::
      ([2, 5, 8, 11, 14, 17, 20, 23, 26, 29].map (fun i => pyTake (pyDrop hx i) 3)) := by
  rw [SimpleHTTPResolver.shardPieces, hlen, pyRange_2_32]

theorem shardPieces_props (hx : String) (hlen : hx.data.length = 32)
    (hhex : ∀ c ∈ hx.data, c ∈ hexChars) :
    ∀ s ∈ SimpleHTTPResolver.shardPieces hx,
      s.data ≠ [] ∧ s.data.head? ≠ some '/' ∧ s.data.getLast? ≠ some '/' := by
  have slashFree : ∀ (l : List Char), l ⊆ hx.data →
      l.head? ≠ some '/' ∧ l.getLast? ≠ some '/' := by
    intro l hsub
    constructor
    · intro h
      have hm := hsub (mem_of_head?_eq l '/' h)
      have := hhex '/' hm
      exact absurd this (by decide)
    · intro h
      have hm := hsub (mem_of_getLast?_eq l '/' h)
      have := hhex '/' hm
      exact absurd this (by decide)
  intro s hs
  rw [shardPieces_unfold hx hlen] at hs
  rcases List.mem_cons.mp hs with rfl | hs2
  · have hsub : (pyTake hx 2).data ⊆ hx.data := List.take_subset 2 hx.data
    refine ⟨?_, (slashFree _ hsub).1, (slashFree _ hsub).2⟩
    show hx.data.take 2 ≠ []
    intro hnil
    have : (hx.data.take 2).length = 0 := by rw [hnil]; rfl
    rw [List.length_take, hlen] at this
    simp at this
  · rw [List.mem_map] at hs2
    obtain ⟨i, hi, rfl⟩ := hs2
    have hile : i ≤ 29 := by
      have hall : ∀ j ∈ ([2, 5, 8, 11, 14, 17, 20, 23, 26, 29] : List Nat), j ≤ 29 := by
        decide
      exact hall i hi
    have hsub : (pyTake (pyDrop hx i) 3).data ⊆ hx.data := by
      intro c hc
      exact List.drop_subset i hx.data (List.take_subset 3 _ hc)
    refine ⟨?_, (slashFree _ hsub).1, (slashFree _ hsub).2⟩
    show ((hx.data.drop i).take 3) ≠ []
    intro hnil
    have : ((hx.data.drop i).take 3).length = 0 := by rw [hnil]; rfl
    rw [List.length_take, List.length_drop, hlen] at this
    omega

theorem foldl_pjoin_shards (hx : String) (hlen : hx.data.length = 32)
    (hhex : ∀ c ∈ hx.data, c ∈ hexChars) :
    (SimpleHTTPResolver.shardPieces hx).foldl pjoin "" =
      slashJoin (SimpleHTTPResolver.shardPieces hx) := by
  have hprops := shardPieces_props hx hlen hhex
  rw [shardPieces_unfold hx hlen] at hprops ⊢
  obtain ⟨hp1, hp2, hp3⟩ := hprops (pyTake hx 2) (by simp)
  rw [List.foldl_cons, pjoin_empty_left]
  rw [foldl_pjoin_norm _ _ hp1 hp3 (fun t ht => hprops t (List.mem_cons_of_mem _ ht))]
  rw [slashJoin]

theorem hashPath_data (hx : String) (hlen : hx.data.length = 32) :
    (slashJoin (SimpleHTTPResolver.shardPieces hx)).data =
      hx.data.take 2 ++ (([2, 5, 8, 11, 14, 17, 20, 23, 26, 29] : List Nat).map
        (fun i => '/' :: (hx.data.drop i).take 3)).flatten := by
  rw [shardPieces_unfold hx hlen]
  rfl

theorem hashPath_length (hx : String) (hlen : hx.data.length = 32) :
    (slashJoin (SimpleHTTPResolver.shardPieces hx)).data.length = 42 := by
  rw [hashPath_data hx hlen]
  simp [List.length_take, List.length_drop, hlen]

theorem take3_chain (l : List Char) (i j : Nat) (h : i + 3 = j) :
    (l.drop i).take 3 ++ l.drop j = l.drop i := by
  subst h
  rw [← List.drop_drop]
  exact List.take_append_drop 3 (l.drop i)

theorem hashPath_filter (hx : String) (hlen : hx.data.length = 32)
    (hhex : ∀ c ∈ hx.data, c ∈ hexChars) :
    (slashJoin (SimpleHTTPResolver.shardPieces hx)).data.filter
      (fun c => !(c == '/')) = hx.data := by
  have hfizsub : ∀ (l : List Char), l ⊆ hx.data →
      l.filter (fun c => !(c == '/')) = l := by
    intro l hsub
    rw [List.filter_eq_self]
    intro a ha
    have hmem := hhex a (hsub ha)
    have hall : ∀ x ∈ hexChars, (!(x == '/')) = true := by decide
    exact hall a hmem
  rw [hashPath_data hx hlen, List.filter_append, List.filter_flatten, List.map_map]
  have hmapeq : (([2, 5, 8, 11, 14, 17, 20, 23, 26, 29] : List Nat).map
        (List.filter (fun c => !(c == '/')) ∘ fun i => '/' :: (hx.data.drop i).take 3)) =
      ([2, 5, 8, 11, 14, 17, 20, 23, 26, 29] : List Nat).map
        (fun i => (hx.data.drop i).take 3) := by
    apply List.map_congr_left
    intro i _
    show List.filter _ ('/' :: (hx.data.drop i).take 3) = _
    rw [List.filter_cons_of_neg (by decide)]
    exact hfizsub _ (fun c hc => List.drop_subset i hx.data (List.take_subset 3 _ hc))
  rw [hmapeq, hfizsub _ (List.take_subset 2 hx.data)]
  have hlast : (hx.data.drop 29).take 3 = hx.data.drop 29 :=
    List.take_of_length_le (by rw [List.length_drop, hlen])
  simp only [List.map_cons, List.map_nil, List.flatten_cons, List.flatten_nil,
    List.append_nil, hlast]
  rw [take3_chain hx.data 26 29 (by norm_num), take3_chain hx.data 23 26 (by norm_num),
    take3_chain hx.data 20 23 (by norm_num), take3_chain hx.data 17 20 (by norm_num),
    take3_chain hx.data 14 17 (by norm_num), take3_chain hx.data 11 14 (by norm_num),
    take3_chain hx.data 8 11 (by norm_num), take3_chain hx.data 5 8 (by norm_num),
    take3_chain hx.data 2 5 (by norm_num)]
  exact List.take_append_drop 2 hx.data

theorem ident_file_structure_slashJoin (ident : String) :
    SimpleHTTPResolver.ident_file_structure ident =
      slashJoin (SimpleHTTPResolver.shardPieces (md5Hex (quote_plus ident))) := by
  rw [SimpleHTTPResolver.ident_file_structure]
  exact foldl_pjoin_shards _ (md5Hex_length _) (md5Hex_mem _)

theorem pjoin_data_suffix (a b : String) : ∃ p, (pjoin a b).data = p ++ b.data := by
  rw [pjoin]
  split
  · exact ⟨[], rfl⟩
  · split
    · exact ⟨a.data, String.data_append a b⟩
    · refine ⟨a.data ++ ['/'], ?_⟩
      rw [String.data_append, String.data_append]

theorem cache_subroot_suffix (ident : String) :
    ∃ p : List Char, (SimpleHTTPResolver.cache_subroot ident).data =
      p ++ (slashJoin (SimpleHTTPResolver.shardPieces (md5Hex (quote_plus ident)))).data := by
  rw [SimpleHTTPResolver.cache_subroot, ident_file_structure_slashJoin]
  exact pjoin_data_suffix _ _

/-! ## Claims C2 and C3 -/

/-- Claim C2 fails on the code: the identifier https:/a is not an http:// or
https:// URL and contains a colon, so the claim's structure puts it in the
pid-space case with directory component https, but _cache_subroot tests the
prefixes http:/ and https:/ and files it under the literal http component. -/
theorem c2_counterexample :
    cacheSubrootClaim "https:/a" ≠ SimpleHTTPResolver.cache_subroot "https:/a" := by
  decide

/-- Claim C2 as amended: the derived cache sub-path consists of the
colon-delimited segments except the last (combined by POSIX join) when the
identifier does not begin with http:/ or https:/ and contains a colon, the
single literal component http when it does begin with one of those, and in
either case the hex md5 of the percent-encoded identifier split into one
2-character directory component followed by 3-character components. -/
theorem c2_amended_structure (ident : String) :
    SimpleHTTPResolver.cache_subroot ident = cacheSubrootAmended ident := by
  simp only [SimpleHTTPResolver.cache_subroot, cacheSubrootAmended, joinComponents]
  rw [ident_file_structure_slashJoin]
  by_cases hs1 : pyStartsWith ident "http:/" = true <;>
    by_cases hs2 : pyStartsWith ident "https:/" = true <;>
    by_cases hL : (splitChar ':' ident.data).length > 1 <;>
    simp [hs1, hs2, hL]

/-- Claim C3: the cache path deriver is deterministic (it is a pure function
of the identifier) and injective up to md5 collisions: identifiers whose
md5 digests of the percent-encoded form differ derive different cache
sub-paths. -/
theorem c3_deriver_deterministic_injective :
    (∀ ident : String,
      SimpleHTTPResolver.cache_subroot ident = SimpleHTTPResolver.cache_subroot ident) ∧
    ∀ i1 i2 : String, md5Hex (quote_plus i1) ≠ md5Hex (quote_plus i2) →
      SimpleHTTPResolver.cache_subroot i1 ≠ SimpleHTTPResolver.cache_subroot i2 := by
  refine ⟨fun _ => rfl, ?_⟩
  intro i1 i2 hmd heq
  obtain ⟨p1, hp1⟩ := cache_subroot_suffix i1
  obtain ⟨p2, hp2⟩ := cache_subroot_suffix i2
  have hdata : (SimpleHTTPResolver.cache_subroot i1).data =
      (SimpleHTTPResolver.cache_subroot i2).data := by rw [heq]
  rw [hp1, hp2] at hdata
  have hl1 := hashPath_length (md5Hex (quote_plus i1)) (md5Hex_length _)
  have hl2 := hashPath_length (md5Hex (quote_plus i2)) (md5Hex_length _)
  have hsuf := (List.append_inj' hdata (by rw [hl1, hl2])).2
  have hfil1 := hashPath_filter (md5Hex (quote_plus i1)) (md5Hex_length _) (md5Hex_mem _)
  have hfil2 := hashPath_filter (md5Hex (quote_plus i2)) (md5Hex_length _) (md5Hex_mem _)
  have hdd : (md5Hex (quote_plus i1)).data = (md5Hex (quote_plus i2)).data := by
    rw [← hfil1, ← hfil2, hsuf]
  exact hmd (String.ext hdd)

/-- Witness for C3 at the identifiers a and b: their digests differ and so
do their derived cache sub-paths. -/
theorem c3_witness :
    md5Hex (quote_plus "a") ≠ md5Hex (quote_plus "b") ∧
      SimpleHTTPResolver.cache_subroot "a" ≠ SimpleHTTPResolver.cache_subroot "b" :=
  ⟨by decide, c3_deriver_deterministic_injective.2 "a" "b" (by decide)⟩

/-! ## Filesystem monotonicity -/

theorem contains_mono {l : List String} (q p : String)
    (h : l.contains q = true) : (p :: l).contains q = true := by
  simp at h ⊢
  exact Or.inr h

theorem contains_append_right {l l' : List String} (q : String)
    (h : l.contains q = true) : (l' ++ l).contains q = true := by
  simp at h ⊢
  exact Or.inr h

theorem contains_ite_cons (l : List String) (p q : String) (h : l.contains q = true) :
    (if l.contains p = true then l else p :: l).contains q = true := by
  split
  · exact h
  · exact contains_mono q p h

theorem contains_ite_cons_self (l : List String) (p : String) :
    (if l.contains p = true then l else p :: l).contains p = true := by
  split
  · assumption
  · simp

theorem writeFile_mono (fs fs' : FS) (p q : String) (h : writeFile fs p = .ok fs')
    (hq : pathExists fs q = true) : pathExists fs' q = true := by
  rw [writeFile] at h
  split at h
  · exact absurd h (by simp)
  · split at h
    · have hfs : fs' = { fs with files := if fs.files.contains p = true then fs.files
          else p :: fs.files } := by
        injection h with h2
        exact h2.symm
      subst hfs
      rw [pathExists] at hq ⊢
      rcases Bool.or_eq_true_iff.mp hq with h1 | h1
      · rw [Bool.or_eq_true_iff]
        exact Or.inl h1
      · rw [Bool.or_eq_true_iff]
        exact Or.inr (contains_ite_cons fs.files p q h1)
    · exact absurd h (by simp)

theorem writeFile_target (fs fs' : FS) (p : String) (h : writeFile fs p = .ok fs') :
    fs'.files.contains p = true := by
  rw [writeFile] at h
  split at h
  · exact absurd h (by simp)
  · split at h
    · have hfs : fs' = { fs with files := if fs.files.contains p = true then fs.files
          else p :: fs.files } := by
        injection h with h2
        exact h2.symm
      subst hfs
      exact contains_ite_cons_self fs.files p
    · exact absurd h (by simp)

theorem makedirs_mono (fs fs' : FS) (p q : String) (h : makedirs fs p = .ok fs')
    (hq : pathExists fs q = true) : pathExists fs' q = true := by
  rw [makedirs] at h
  split at h
  · exact absurd h (by simp)
  · split at h
    · exact absurd h (by simp)
    · have hfs : fs' = { fs with dirs := p :: (ancChain p ++ fs.dirs) } := by
        injection h with h2
        exact h2.symm
      subst hfs
      rw [pathExists] at hq ⊢
      simp only []
      rcases Bool.or_eq_true_iff.mp hq with h1 | h1
      · rw [Bool.or_eq_true_iff]
        exact Or.inl (contains_mono q p (contains_append_right q h1))
      · rw [h1]
        simp

theorem copyFile_mono (fs fs' : FS) (src dst q : String)
    (h : copyFile fs src dst = .ok fs') (hq : pathExists fs q = true) :
    pathExists fs' q = true := by
  rw [copyFile] at h
  split at h
  · exact writeFile_mono fs fs' dst q h hq
  · exact absurd h (by simp)

theorem copyFile_target (fs fs' : FS) (src dst : String)
    (h : copyFile fs src dst = .ok fs') : fs'.files.contains dst = true := by
  rw [copyFile] at h
  split at h
  · exact writeFile_target fs fs' dst h
  · exact absurd h (by simp)

/-! ## Claim C1: second resolve of a cached identifier -/

theorem cached_object_ok_in_cache (cfg : SimpleHTTPResolver.Cfg) (fs : FS)
    (ident p : String) (h : SimpleHTTPResolver.cached_object cfg fs ident = .ok p) :
    SimpleHTTPResolver.in_cache cfg fs ident = true := by
  rw [SimpleHTTPResolver.cached_object] at h
  rcases hcf : SimpleHTTPResolver.cached_files_for_ident cfg fs ident with _ | ⟨f, rest⟩
  · rw [hcf] at h
    exact absurd h (by simp)
  · rw [SimpleHTTPResolver.cached_files_for_ident] at hcf
    by_cases hpe : pathExists fs (SimpleHTTPResolver.cache_dir_path cfg ident) = true
    · exact hpe
    · rw [if_neg hpe] at hcf
      exact absurd hcf.symm (List.cons_ne_nil f rest)

theorem resolveW_idempotent (cfg : SimpleHTTPResolver.Cfg)
    (wru : String → Except PyErr (Option String × ReqOpts)) (net : Net) (fs : FS)
    (ident : String) (pr : String × String) (fs1 : FS) (n : Nat)
    (h : SimpleHTTPResolver.resolveW cfg wru net fs ident = (.ok pr, fs1, n)) :
    SimpleHTTPResolver.resolveW cfg wru net fs1 ident = (.ok pr, fs1, 0) := by
  rw [SimpleHTTPResolver.resolveW] at h
  by_cases hic : SimpleHTTPResolver.in_cache cfg fs ident = true
  · rw [if_pos hic] at h
    rcases hco : SimpleHTTPResolver.cached_object cfg fs ident with e | p
    · simp only [hco] at h
      exact absurd h (by simp)
    · simp only [hco] at h
      rcases hfmt : SimpleHTTPResolver.format_from_ident cfg p none with e | fmt
      · simp only [hfmt] at h
        exact absurd h (by simp)
      · simp only [hfmt, Prod.mk.injEq, Except.ok.injEq] at h
        obtain ⟨hpr, hfs, _⟩ := h
        rw [← hfs]
        rw [SimpleHTTPResolver.resolveW, if_pos hic]
        simp only [hco, hfmt, hpr]
  · rw [if_neg hic] at h
    rcases hcc : SimpleHTTPResolver.copy_to_cacheW cfg wru net fs ident with ⟨r, fs2, n2⟩
    rw [hcc] at h
    rcases r with e | u
    · exact absurd h (by simp)
    · rcases hco : SimpleHTTPResolver.cached_object cfg fs2 ident with e | p
      · simp only [hco] at h
        exact absurd h (by simp)
      · simp only [hco] at h
        rcases hfmt : SimpleHTTPResolver.format_from_ident cfg p none with e | fmt
        · simp only [hfmt] at h
          exact absurd h (by simp)
        · simp only [hfmt, Prod.mk.injEq, Except.ok.injEq] at h
          obtain ⟨hpr, hfs, _⟩ := h
          rw [← hfs]
          have hin : SimpleHTTPResolver.in_cache cfg fs2 ident = true :=
            cached_object_ok_in_cache cfg fs2 ident p hco
          rw [SimpleHTTPResolver.resolveW, if_pos hin]
          simp only [hco, hfmt, hpr]

theorem sic_resolve_idempotent (cfg : SourceImageCachingResolver.Cfg) (fs : FS)
    (ident : String) (pr : String × String) (fs1 : FS) (n : Nat)
    (h : SourceImageCachingResolver.resolve cfg fs ident = (.ok pr, fs1, n)) :
    SourceImageCachingResolver.resolve cfg fs1 ident = (.ok pr, fs1, 0) := by
  rw [SourceImageCachingResolver.resolve] at h
  by_cases hres : SourceImageCachingResolver.is_resolvable cfg fs ident = true
  · rw [if_neg (by simp [hres])] at h
    by_cases hic : SourceImageCachingResolver.in_cache cfg fs ident = true
    · rw [if_neg (by simp [hic])] at h
      simp only [Prod.mk.injEq, Except.ok.injEq] at h
      obtain ⟨hpr, hfs, _⟩ := h
      rw [← hfs]
      rw [SourceImageCachingResolver.resolve, if_neg (by simp [hres]),
        if_neg (by simp [hic]), hpr]
    · rw [if_pos (by simp [hic])] at h
      rcases hcc : SourceImageCachingResolver.copy_to_cache cfg fs ident with ⟨r, fs2⟩
      rw [hcc] at h
      rcases r with e | u
      · exact absurd h (by simp)
      · simp only [Prod.mk.injEq, Except.ok.injEq] at h
        obtain ⟨hpr, hfs, _⟩ := h
        rw [← hfs]
        rw [SourceImageCachingResolver.copy_to_cache] at hcc
        rcases hmk : makedirs fs (dirname (SourceImageCachingResolver.cache_file_path
            cfg ident)) with e | fsm
        · simp only [hmk] at hcc
          exact absurd hcc (by simp)
        · simp only [hmk] at hcc
          rcases hcp : copyFile fsm (SourceImageCachingResolver.source_file_path cfg ident)
              (SourceImageCachingResolver.cache_file_path cfg ident) with e | fsc
          · simp only [hcp] at hcc
            exact absurd hcc (by simp)
          · simp only [hcp, Prod.mk.injEq] at hcc
            have hfsc : fsc = fs2 := hcc.2
            subst hfsc
            have hres1 : SourceImageCachingResolver.is_resolvable cfg fsc ident = true := by
              rw [SourceImageCachingResolver.is_resolvable] at hres ⊢
              exact copyFile_mono fsm fsc _ _ _ hcp
                (makedirs_mono fs fsm _ _ hmk hres)
            have hic1 : SourceImageCachingResolver.in_cache cfg fsc ident = true := by
              rw [SourceImageCachingResolver.in_cache, pathExists]
              rw [Bool.or_eq_true_iff]
              exact Or.inr (copyFile_target fsm fsc _ _ hcp)
            rw [SourceImageCachingResolver.resolve, if_neg (by simp [hres1]),
              if_neg (by simp [hic1]), hpr]
  · rw [if_pos (by simp [hres])] at h
    exact absurd h (by simp)

/-- Claim C1: under the HTTP caching strategy and the network-filesystem
caching strategy, once a resolve call has succeeded, an immediately
repeated resolve for the same identifier issues no network request (HTTP)
and performs no copy (counted in the third component), leaves the
filesystem unchanged, and returns the identical (path, format) pair. -/
theorem c1_second_resolve_cached :
    (∀ (cfg : SimpleHTTPResolver.Cfg) (net : Net) (fs : FS) (ident : String)
      (pr : String × String) (fs1 : FS) (n : Nat),
      SimpleHTTPResolver.resolve cfg net fs ident = (.ok pr, fs1, n) →
      SimpleHTTPResolver.resolve cfg net fs1 ident = (.ok pr, fs1, 0)) ∧
    (∀ (cfg : SourceImageCachingResolver.Cfg) (fs : FS) (ident : String)
      (pr : String × String) (fs1 : FS) (n : Nat),
      SourceImageCachingResolver.resolve cfg fs ident = (.ok pr, fs1, n) →
      SourceImageCachingResolver.resolve cfg fs1 ident = (.ok pr, fs1, 0)) := by
  constructor
  · intro cfg net fs ident pr fs1 n h
    exact resolveW_idempotent cfg _ net fs ident pr fs1 n h
  · intro cfg fs ident pr fs1 n h
    exact sic_resolve_idempotent cfg fs ident pr fs1 n h

/-- Witness for C1: with a staged cache file already present, a resolve
succeeds, and the theorem applied to it gives the repeated call. -/
theorem c1_witness :
    SimpleHTTPResolver.resolve wHttpCfg wNetJpeg wFsCached "x" =
      (.ok (pjoin (SimpleHTTPResolver.cache_dir_path wHttpCfg "x") "loris_cache.jpg", "jpg"),
        wFsCached, 0) :=
  c1_second_resolve_cached.1 wHttpCfg wNetJpeg wFsCached "x" _ wFsCached 0 rfl

/-! ## Claim C10: an existing cache directory with no staged file -/

/-- Claim C10: in_cache tests only the existence of the cache directory,
and when that directory exists but contains no loris_cache.* file, resolve
raises the 404 of cached_object without any network request or population
attempt, leaving the state unchanged. -/
theorem c10_empty_cache_dir (cfg : SimpleHTTPResolver.Cfg) (net : Net) (fs : FS)
    (ident : String)
    (hdir : fs.dirs.contains (SimpleHTTPResolver.cache_dir_path cfg ident) = true)
    (hglob : globCache fs (SimpleHTTPResolver.cache_dir_path cfg ident) = []) :
    SimpleHTTPResolver.in_cache cfg fs ident =
      pathExists fs (SimpleHTTPResolver.cache_dir_path cfg ident) ∧
    SimpleHTTPResolver.resolve cfg net fs ident =
      (.error (.resolverExn 404 ("Image not found for identifier: " ++ ident ++ ".")),
        fs, 0) := by
  have hpe : pathExists fs (SimpleHTTPResolver.cache_dir_path cfg ident) = true := by
    rw [pathExists, Bool.or_eq_true_iff]
    exact Or.inl hdir
  refine ⟨rfl, ?_⟩
  have hco : SimpleHTTPResolver.cached_object cfg fs ident =
      .error (.resolverExn 404 ("Image not found for identifier: " ++ ident ++ ".")) := by
    rw [SimpleHTTPResolver.cached_object, SimpleHTTPResolver.cached_files_for_ident]
    simp only [if_pos hpe, hglob]
  rw [SimpleHTTPResolver.resolve, SimpleHTTPResolver.resolveW,
    if_pos (show SimpleHTTPResolver.in_cache cfg fs ident = true from hpe)]
  simp only [hco]

/-- Witness for C10 at a concrete empty cache directory. -/
theorem c10_witness :
    SimpleHTTPResolver.resolve wHttpCfg wNetJpeg wFsEmptyDir "x" =
      (.error (.resolverExn 404 "Image not found for identifier: x."), wFsEmptyDir, 0) := by
  have h := c10_empty_cache_dir wHttpCfg wNetJpeg wFsEmptyDir "x" (by decide) (by decide)
  exact h.2

/-! ## Claim C5: is_resolvable versus resolve -/

/-- Claim C5 fails on the code: under SimpleHTTPResolver, a cache directory
that exists but holds no staged loris_cache.* file makes is_resolvable
true (no network call) while the immediately following resolve raises the
NotFound ResolverException, with no change of external state. -/
theorem c5_counterexample :
    SimpleHTTPResolver.is_resolvable wHttpCfg wNetJpeg wFsEmptyDir "x" = (.ok true, 0) ∧
    SimpleHTTPResolver.resolve wHttpCfg wNetJpeg wFsEmptyDir "x" =
      (.error (.resolverExn 404 "Image not found for identifier: x."), wFsEmptyDir, 0) :=
  ⟨rfl, rfl⟩

/-- Claim C5 as amended: under the plain filesystem strategy
(SimpleFSResolver), whenever is_resolvable returns true, an immediately
following resolve on the unchanged state succeeds with a (path, format)
pair; the caching strategies do not give this guarantee. -/
theorem c5_amended_fs_resolvable (cfg : SimpleFSResolver.Cfg) (fs : FS) (ident : String)
    (h : SimpleFSResolver.is_resolvable cfg fs ident = true) :
    ∃ pr : String × String, SimpleFSResolver.resolve cfg fs ident = .ok pr := by
  rw [SimpleFSResolver.is_resolvable] at h
  rcases hsp : SimpleFSResolver.source_file_path cfg fs ident with _ | fp
  · rw [hsp] at h
    simp at h
  · exact ⟨(fp, SimpleFSResolver.format_from_ident ident), by
      rw [SimpleFSResolver.resolve]
      simp only [hsp]⟩

/-- Witness for C5 as amended, at a concrete resolvable identifier. -/
theorem c5_witness :
    ∃ pr : String × String, SimpleFSResolver.resolve wFsCfg wFsState "x.jpg" = .ok pr :=
  c5_amended_fs_resolvable wFsCfg wFsState "x.jpg" (by decide)

/-! ## Claim C8: lowercase format tokens -/

theorem toNat_ofNat_small (m : Nat) (h2 : m < 55296) : (Char.ofNat m).toNat = m := by
  rw [Char.ofNat, dif_pos (Or.inl h2)]
  simp [Char.ofNatAux, Char.toNat, UInt32.toNat, UInt32.ofNat']

theorem toLowerPy_isLower (s : String) : isLowerAscii (toLowerPy s) = true := by
  rw [toLowerPy, isLowerAscii]
  rw [List.all_eq_true]
  intro c hc
  rw [List.mem_map] at hc
  obtain ⟨d, _, rfl⟩ := hc
  rw [asciiLower]
  by_cases hd : 65 ≤ d.toNat ∧ d.toNat ≤ 90
  · rw [if_pos hd]
    have h1 : (Char.ofNat (d.toNat + 32)).toNat = d.toNat + 32 :=
      toNat_ofNat_small _ (by omega)
    simp only [Bool.not_eq_true']
    rw [Bool.and_eq_false_iff]
    right
    rw [decide_eq_false_iff_not]
    omega
  · rw [if_neg hd]
    simp only [Bool.not_eq_true']
    rw [Bool.and_eq_false_iff]
    rcases Decidable.not_and_iff_or_not.mp hd with h | h
    · left
      rw [decide_eq_false_iff_not]
      omega
    · right
      rw [decide_eq_false_iff_not]
      omega

/-- Claim C8 fails on the code: the network-filesystem caching strategy
returns the identifier's extension verbatim, here the uppercase JPG. -/
theorem c8_counterexample :
    SourceImageCachingResolver.resolve wSicCfg wSicFs "x.JPG" =
      (.ok ("/c/x.JPG", "JPG"), wSicFs, 0) ∧ isLowerAscii "JPG" = false :=
  ⟨rfl, rfl⟩

/-- Claim C8 as amended: under the plain filesystem strategy
(SimpleFSResolver), whenever resolve succeeds the returned format token
contains no uppercase ASCII letter; the HTTP and network-filesystem
caching strategies return the extension or configured format verbatim. -/
theorem c8_amended_fs_lowercase (cfg : SimpleFSResolver.Cfg) (fs : FS) (ident : String)
    (pr : String × String) (h : SimpleFSResolver.resolve cfg fs ident = .ok pr) :
    isLowerAscii pr.2 = true := by
  rw [SimpleFSResolver.resolve] at h
  rcases hsp : SimpleFSResolver.source_file_path cfg fs ident with _ | fp
  · simp only [hsp] at h
    exact absurd h (by simp)
  · simp only [hsp, Except.ok.injEq] at h
    rw [← h]
    exact toLowerPy_isLower _

/-- Witness for C8 as amended, at a concrete uppercase-suffixed identifier. -/
theorem c8_witness : isLowerAscii ((("/a/x.JPG", "jpg") : String × String)).2 = true :=
  c8_amended_fs_lowercase wFsCfg wFsState "x.JPG" ("/a/x.JPG", "jpg") rfl

/-! ## Claim C6: template dispatch without a matching template -/

theorem template_wru_none (cfg : TemplateHTTPResolver.Cfg) (uid : String)
    (hmiss : containsChar uid ':' = false ∨
      cfg.templates.lookup (String.mk (breakAtChar ':' uid.data).1) = none) :
    TemplateHTTPResolver.web_request_url cfg uid = .ok (none, {}) := by
  rw [TemplateHTTPResolver.web_request_url]
  by_cases hc : containsChar uid ':' = true
  · rw [if_neg (by simp [hc])]
    have hl : cfg.templates.lookup (String.mk (breakAtChar ':' uid.data).1) = none := by
      rcases hmiss with h | h
      · rw [hc] at h
        exact absurd h (by simp)
      · exact h
    rcases hd : cfg.delimiter with _ | d <;> simp only [hd, hl]
  · rw [if_pos (by simp at hc ⊢; exact hc)]

/-- Claim C6 fails on the code as stated: is_resolvable first consults the
local cache, so a pre-existing cache directory makes a colon-free
identifier resolvable; and the colon test runs on the percent-decoded
identifier, so an identifier with an encoded colon and a configured
template prefix is resolvable too. -/
theorem c6_counterexample :
    TemplateHTTPResolver.is_resolvable wTplCfg wNetJpeg wTplFs "favicon.ico" =
      (.ok true, 0) ∧
    containsChar "favicon.ico" ':' = false ∧
    TemplateHTTPResolver.is_resolvable wTplCfg2 wNetJpeg wFsNone "a%3A1" = (.ok true, 1) ∧
    containsChar "a%3A1" ':' = false :=
  ⟨rfl, rfl, rfl, rfl⟩

/-- Claim C6 as amended: under the template dispatch strategy, for every
identifier whose percent-decoded form contains no colon, and for every
identifier whose decoded prefix before the first colon matches no
configured template, provided no cache entry for the identifier exists,
is_resolvable returns false and resolve fails with the NotFound
ResolverException, with zero network requests in both cases. -/
theorem c6_amended_no_dispatch (cfg : TemplateHTTPResolver.Cfg) (net : Net) (fs : FS)
    (ident : String)
    (hnc : pathExists fs (pjoin cfg.base.cache_root
      (SimpleHTTPResolver.cache_subroot (unquote ident))) = false)
    (hmiss : containsChar (unquote ident) ':' = false ∨
      cfg.templates.lookup (String.mk (breakAtChar ':' (unquote ident).data).1) = none) :
    TemplateHTTPResolver.is_resolvable cfg net fs ident = (.ok false, 0) ∧
    TemplateHTTPResolver.resolve cfg net fs ident =
      (.error (.resolverExn 404
        ("Bad URL request made for identifier: " ++ unquote ident ++ ".")), fs, 0) := by
  have hwru := template_wru_none cfg (unquote ident) hmiss
  constructor
  · rw [TemplateHTTPResolver.is_resolvable, SimpleHTTPResolver.is_resolvableW]
    rcases hrx : cfg.base.ident_regex with _ | rx
    · rw [if_neg (by simp [hrx]), if_neg (by simp [hnc])]
      simp only [hwru]
      rcases hh : cfg.base.head_resolvable with _ | _
      · rw [if_neg (by simp [hh])]
        rfl
      · rw [if_pos (by simp [hh])]
        rfl
    · by_cases hm : rx (unquote ident) = true
      · rw [if_neg (by simp [hrx, hm]), if_neg (by simp [hnc])]
        simp only [hwru]
        rcases hh : cfg.base.head_resolvable with _ | _
        · rw [if_neg (by simp [hh])]
          rfl
        · rw [if_pos (by simp [hh])]
          rfl
      · rw [if_pos (by simp [hrx, hm])]
  · have hic : SimpleHTTPResolver.in_cache cfg.base fs ident = false := hnc
    rw [TemplateHTTPResolver.resolve, SimpleHTTPResolver.resolveW,
      if_neg (by simp [hic])]
    have hcc : SimpleHTTPResolver.copy_to_cacheW cfg.base
        (TemplateHTTPResolver.web_request_url cfg) net fs ident =
        (.error (.resolverExn 404
          ("Bad URL request made for identifier: " ++ unquote ident ++ ".")), fs, 0) := by
      rw [SimpleHTTPResolver.copy_to_cacheW]
      simp only [hwru]
      rfl
    simp only [hcc]

/-- Witness for C6 as amended, at the colon-free identifier favicon.ico on
an empty filesystem. -/
theorem c6_witness :
    TemplateHTTPResolver.is_resolvable wTplCfg wNetJpeg wFsNone "favicon.ico" =
      (.ok false, 0) ∧
    TemplateHTTPResolver.resolve wTplCfg wNetJpeg wFsNone "favicon.ico" =
      (.error (.resolverExn 404
        "Bad URL request made for identifier: favicon.ico."), wFsNone, 0) :=
  c6_amended_no_dispatch wTplCfg wNetJpeg wFsNone "favicon.ico" (by decide)
    (Or.inl (by decide))

/-! ## Claim C7: a malformed identifier under IwmFSResolver -/

/-- Claim C7 meets a code bug: the identifier abc cannot be mapped to bytes,
and the claim (and the resolver interface documentation) demand the
NotFound ResolverException, but source_file_path's three-way tuple
unpacking raises an uncaught ValueError before any query is made. -/
theorem c7_malformed_ident_valueerror :
    IwmFSResolver.resolve wIwmCfg wSolrEmpty wFsNone "abc" = (.error .valueErr, 0) := rfl

/-! ## Claim C9: population with an existing cache directory -/

/-- Claim C9 meets a code bug: the HTTP strategy tolerates the
already-existing cache directory (its makedirs failure is swallowed and
the file is staged), but the network-filesystem strategy's copy step runs
makedirs unguarded and crashes with OSError when the parent directory of
the cache path already exists. -/
theorem c9_dir_exists_population :
    SimpleHTTPResolver.copy_to_cache wHttpCfg wNetJpeg wFs9http "x.jpg" =
      (.ok (), wFs9httpAfter, 1) ∧
    SourceImageCachingResolver.copy_to_cache wSicCfg wSicFs9 "b/y.jpg" =
      (.error .osErr, wSicFs9) :=
  ⟨rfl, rfl⟩
